import Mathlib

/-!
# Verification of the SimplifyCRM data/activity layer

A shallow embedding of the SimplifyCRM repository's cache, retry, activity
domain logic and custom-field handling, together with theorems settling the
specification claims about them.

Sources embedded here:
* `src/shared/data-service.js` — `DataService.setCache/getCache/clearCache`,
  `DataService.retryRequest`, `DataService.saveActivity`,
  `DataService.loadCustomFieldDefinitions`, and the two `CustomFieldsUI`
  variants bundled in the same file.
* `src/unnamed/part_000` — `ActivitiesService` (validation, update/complete/
  cancel, upcoming/overdue queries, `applyFilters`, `getActivityStats`).

Conventions of the embedding:
* JavaScript strings stay `String`; a missing/`undefined` string field and
  `''` are identified whenever the source immediately applies `|| ''` (so
  truthiness of a string field is `≠ ""`).
* Timestamps (`Date.now()`) are `Nat` milliseconds.
* External builtins (`JSON.parse` for option lists, `Number(...)` parsing,
  `new Date(s)` parseability) are abstract parameters of the definitions
  that use them; the definitions themselves follow the source verbatim.
* JavaScript `Map` and plain-object dictionaries are association lists with
  in-place update, matching insertion-order semantics.
-/

/-! ## Cache (`DataService.setCache` / `getCache` / `clearCache`) -/

/-- One entry of `DataService.cache`: `{ value, timestamp: Date.now() }`. -/
structure CacheEntry (V : Type) where
  value : V
  timestamp : Nat
deriving Repr, DecidableEq

/-- `DataService.cache` is a JS `Map`; modelled as an association list with
insertion-order update semantics. -/
abbrev Cache (V : Type) := List (String × CacheEntry V)

/-- `DataService.CACHE_TTL = CONFIG.SESSION.CACHE_TTL = 5 * 60 * 1000`. -/
def CACHE_TTL : Nat := 5 * 60 * 1000

/-- JS `Map.prototype.set`: replaces the value at an existing key in place,
otherwise appends the pair. -/
def mapSet {V : Type} (c : Cache V) (k : String) (e : CacheEntry V) : Cache V :=
  match c with
  | [] => [(k, e)]
  | (k', e') :: rest => if k' == k then (k, e) :: rest else (k', e') :: mapSet rest k e

/-- JS `Map.prototype.get`. -/
def mapGet {V : Type} (c : Cache V) (k : String) : Option (CacheEntry V) :=
  match c with
  | [] => none
  | (k', e) :: rest => if k' == k then some e else mapGet rest k

/-- JS `Map.prototype.delete` (keys are unique, so removing the first match
removes the entry). -/
def mapDelete {V : Type} (c : Cache V) (k : String) : Cache V :=
  match c with
  | [] => []
  | (k', e) :: rest => if k' == k then rest else (k', e) :: mapDelete rest k

/-- `DataService.setCache(key, value)` at current time `now`. -/
def setCache {V : Type} (c : Cache V) (now : Nat) (key : String) (value : V) : Cache V :=
  mapSet c key { value := value, timestamp := now }

/-- `DataService.getCache(key)` at current time `now`; returns the hit (or
`none`) together with the cache state after the call (expired entries are
deleted). -/
def getCache {V : Type} (c : Cache V) (now : Nat) (key : String) : Option V × Cache V :=
  match mapGet c key with
  | none => (none, c)
  | some item =>
    if now - item.timestamp > CACHE_TTL then
      (none, mapDelete c key)
    else
      (some item.value, c)

/-- `DataService.clearCache(key?)`; `none` models the `null` default. -/
def clearCache {V : Type} (c : Cache V) (key : Option String) : Cache V :=
  match key with
  | some k => mapDelete c k
  | none => []

/-! ## Retry wrapper (`DataService.retryRequest`) -/

/-- `Except.isOk`-style discriminator for the retry model. -/
def exceptIsOk {E A : Type} : Except E A → Bool
  | .ok _ => true
  | .error _ => false

/-- The body of `retryRequest`'s `for` loop, starting at iteration `i` with
`fuel = maxRetries - i` iterations left.  `op j` is the outcome of the
`j`-th invocation (0-based) of the wrapped async function.  Returns the
final outcome, the list of invocation indices performed, and the list of
backoff delays waited (`CONFIG.API.RETRY_DELAY`-style base is `base`);
`none` models the `undefined` result of a zero-iteration loop. -/
def retryFrom {E A : Type} (op : Nat → Except E A) (base : Nat) :
    Nat → Nat → Option (Except E A × List Nat × List Nat)
  | _, 0 => none
  | i, fuel + 1 =>
    match op i with
    | .ok a => some (.ok a, [i], [])
    | .error e =>
      if fuel == 0 then
        some (.error e, [i], [])
      else
        match retryFrom op base (i + 1) fuel with
        | some (r, calls, delays) => some (r, i :: calls, base * 2 ^ i :: delays)
        | none => none

/-- `DataService.retryRequest(fn, maxRetries)` with backoff base
`CONFIG.API.RETRY_DELAY` generalised to `base`. -/
def retryRequest {E A : Type} (op : Nat → Except E A) (maxRetries : Nat) (base : Nat) :
    Option (Except E A × List Nat × List Nat) :=
  retryFrom op base 0 maxRetries

/-! ## Activity data model -/

/-- An activity record as produced by `DataService.loadActivities` /
consumed by `DataService.saveActivity` (columns A–J of the sheet). -/
structure Activity where
  id : String
  type : String
  title : String
  date : String
  notes : String
  companyId : String
  contactId : String
  status : String
  createdBy : String
  createdAt : String
deriving Repr, DecidableEq

/-- Modelled from the spec: per-type metadata of
`CONFIG.ACTIVITIES.TYPES[t]` — "if the type's metadata requires a title,
title must be non-empty; if it requires a date, date must be non-empty".
The config file's `ACTIVITIES` section is not under `src/`. -/
structure ActivityTypeMeta where
  requiresTitle : Bool
  requiresDate : Bool
deriving Repr, DecidableEq

/-- Modelled from the spec: `CONFIG.ACTIVITIES.STATUSES.PLANNED`; the value
`"planned"` is corroborated by the literals in `data-service.js`
(`row[7] || 'planned'`) and `part_000` (`getStatusLabel`, `byStatus`). -/
def STATUS_PLANNED : String := "planned"

/-- Modelled from the spec: `CONFIG.ACTIVITIES.STATUSES.COMPLETED`. -/
def STATUS_COMPLETED : String := "completed"

/-- Modelled from the spec: `CONFIG.ACTIVITIES.STATUSES.CANCELLED`. -/
def STATUS_CANCELLED : String := "cancelled"

/-- The configuration and JS-builtin environment `validateActivity` runs
in: the `CONFIG.ACTIVITIES.TYPES` table (absent from `src/`, kept
abstract) and the parseability predicate of `new Date(s).getTime()`
(`parsesAsDate s = true` iff the result is not `NaN`). -/
structure ActivityConfig where
  types : String → Option ActivityTypeMeta
  parsesAsDate : String → Bool

/-- Result shape of `ActivitiesService.validateActivity`. -/
structure ValidationResult where
  valid : Bool
  errors : List String
deriving Repr, DecidableEq

/-- `ActivitiesService.validateActivity(activity)`; error pushes happen in
source order. -/
def validateActivity (cfg : ActivityConfig) (a : Activity) : ValidationResult :=
  let typeErrors :=
    match cfg.types a.type with
    | none => ["Nieprawidłowy typ aktywności: " ++ a.type]
    | some t =>
      (if t.requiresTitle && a.title == "" then ["Tytuł jest wymagany"] else []) ++
      (if t.requiresDate && a.date == "" then ["Data jest wymagana"] else [])
  let linkErrors :=
    if a.companyId == "" && a.contactId == "" then
      ["Aktywność musi być powiązana z firmą lub kontaktem"]
    else []
  let dateErrors :=
    if a.date != "" && !cfg.parsesAsDate a.date then
      ["Nieprawidłowy format daty"]
    else []
  let errors := typeErrors ++ linkErrors ++ dateErrors
  { valid := errors.isEmpty, errors := errors }

/-! ## Activity persistence (`DataService.saveActivity`, row-position update) -/

/-- The pieces of ambient state `saveActivity` draws defaults from:
`DataService.generateId()`, `new Date().toISOString()` and
`AuthService.getUserEmail() || ''`. -/
structure SaveEnv where
  freshId : String
  nowIso : String
  userEmail : String
deriving Repr, DecidableEq

/-- The row written by `DataService.saveActivity(activity, rowIndex)`,
read back as a record (the `||` defaults of `saveActivity` composed with
the `||` defaults of `loadActivities` agree field by field). -/
def normalizeForSave (env : SaveEnv) (a : Activity) : Activity :=
  { id := if a.id == "" then env.freshId else a.id
    type := a.type
    title := a.title
    date := a.date
    notes := a.notes
    companyId := a.companyId
    contactId := a.contactId
    status := if a.status == "" then STATUS_PLANNED else a.status
    createdBy := if a.createdBy == "" then env.userEmail else a.createdBy
    createdAt := if a.createdAt == "" then env.nowIso else a.createdAt }

/-- A partial `updates` object for `ActivitiesService.updateActivity`; a
`none` field is a key absent from the object. -/
structure ActivityUpdates where
  id? : Option String := none
  type? : Option String := none
  title? : Option String := none
  date? : Option String := none
  notes? : Option String := none
  companyId? : Option String := none
  contactId? : Option String := none
  status? : Option String := none
  createdBy? : Option String := none
  createdAt? : Option String := none
deriving Repr, DecidableEq

/-- `{ ...activities[index], ...updates, id: activityId }`. -/
def applyUpdates (a : Activity) (u : ActivityUpdates) (activityId : String) : Activity :=
  { id := activityId
    type := u.type?.getD a.type
    title := u.title?.getD a.title
    date := u.date?.getD a.date
    notes := u.notes?.getD a.notes
    companyId := u.companyId?.getD a.companyId
    contactId := u.contactId?.getD a.contactId
    status := u.status?.getD a.status
    createdBy := u.createdBy?.getD a.createdBy
    createdAt := u.createdAt?.getD a.createdAt }

/-- `Array.prototype.findIndex` paired with the element found. -/
def findIdxElem {α : Type} (p : α → Bool) : List α → Option (Nat × α)
  | [] => none
  | x :: xs =>
    if p x then some (0, x)
    else (findIdxElem p xs).map (fun r => (r.1 + 1, r.2))

/-- `ActivitiesService.updateActivity(activityId, updates)` over a loaded
activity set: locate by id, merge, validate, persist at the same row.
Returns the stored set and the merged record the function returns. -/
def updateActivity (cfg : ActivityConfig) (env : SaveEnv) (acts : List Activity)
    (activityId : String) (updates : ActivityUpdates) :
    Except String (List Activity × Activity) :=
  match findIdxElem (fun a => a.id == activityId) acts with
  | none => .error "Aktywność nie znaleziona"
  | some (index, a) =>
    let activity := applyUpdates a updates activityId
    let validation := validateActivity cfg activity
    if validation.valid then
      .ok (acts.set index (normalizeForSave env activity), activity)
    else
      .error (String.intercalate ", " validation.errors)

/-- `ActivitiesService.completeActivity(activityId)`. -/
def completeActivity (cfg : ActivityConfig) (env : SaveEnv) (acts : List Activity)
    (activityId : String) : Except String (List Activity × Activity) :=
  updateActivity cfg env acts activityId { status? := some STATUS_COMPLETED }

/-- `ActivitiesService.cancelActivity(activityId)`. -/
def cancelActivity (cfg : ActivityConfig) (env : SaveEnv) (acts : List Activity)
    (activityId : String) : Except String (List Activity × Activity) :=
  updateActivity cfg env acts activityId { status? := some STATUS_CANCELLED }

/-! ## Activity queries (`getUpcomingActivities`, `getOverdueActivities`,
`applyFilters`, `getActivityStats`)

`Array.prototype.sort` with a comparator is a stable sort (ECMA-262);
it is modelled by `List.mergeSort` with the corresponding boolean
"less-or-equal" test.  `localeCompare` on ISO date strings is modelled by
lexicographic string order. -/

/-- `ActivitiesService.getUpcomingActivities(companyId, contactId)` over a
loaded set; `""` plays the role of the falsy `null` default, and `today`
is `new Date().toISOString().split('T')[0]`. -/
def getUpcomingActivities (acts : List Activity) (today companyId contactId : String) :
    List Activity :=
  let filtered := acts.filter (fun a =>
    a.status == STATUS_PLANNED && decide (today ≤ a.date))
  let filtered := if companyId == "" then filtered
    else filtered.filter (fun a => a.companyId == companyId)
  let filtered := if contactId == "" then filtered
    else filtered.filter (fun a => a.contactId == contactId)
  filtered.mergeSort (fun a b => decide (a.date ≤ b.date))

/-- `ActivitiesService.getOverdueActivities()` over a loaded set. -/
def getOverdueActivities (acts : List Activity) (today : String) : List Activity :=
  let overdue := acts.filter (fun a =>
    a.status == STATUS_PLANNED && decide (a.date < today))
  overdue.mergeSort (fun a b => decide (a.date ≤ b.date))

/-- A `filters` object for `applyFilters`; `""` models an absent/falsy
filter field. -/
structure ActivityFilters where
  type : String := ""
  status : String := ""
  dateFrom : String := ""
  dateTo : String := ""
deriving Repr, DecidableEq

/-- `ActivitiesService.applyFilters(activities, filters)`. -/
def applyFilters (activities : List Activity) (filters : ActivityFilters) :
    List Activity :=
  let filtered := activities
  let filtered := if filters.type == "" then filtered
    else filtered.filter (fun a => a.type == filters.type)
  let filtered := if filters.status == "" then filtered
    else filtered.filter (fun a => a.status == filters.status)
  let filtered := if filters.dateFrom == "" then filtered
    else filtered.filter (fun a => decide (filters.dateFrom ≤ a.date))
  let filtered := if filters.dateTo == "" then filtered
    else filtered.filter (fun a => decide (a.date ≤ filters.dateTo))
  filtered.mergeSort (fun a b => decide (b.date ≤ a.date))

/-- The stats object built by `ActivitiesService.getActivityStats`.
`byStatus` has exactly the three literal keys, so it is flattened into
three fields (an unknown status never touches them thanks to the
`!== undefined` guard in the source). -/
structure ActivityStats where
  total : Nat
  byType : List (String × Nat)
  byStatusPlanned : Nat
  byStatusCompleted : Nat
  byStatusCancelled : Nat
  upcoming : Nat
  overdue : Nat
deriving Repr, DecidableEq

/-- `stats.byType[t] = (stats.byType[t] || 0) + 1` on a plain JS object:
bump in place or append a fresh key. -/
def bumpType (m : List (String × Nat)) (t : String) : List (String × Nat) :=
  match m with
  | [] => [(t, 1)]
  | (k, n) :: rest => if k == t then (k, n + 1) :: rest else (k, n) :: bumpType rest t

/-- The body of the `filtered.forEach(activity => ...)` loop in
`getActivityStats`. -/
def statsStep (today : String) (s : ActivityStats) (a : Activity) : ActivityStats :=
  let s := { s with byType := bumpType s.byType a.type }
  let s :=
    if a.status == "planned" then { s with byStatusPlanned := s.byStatusPlanned + 1 }
    else if a.status == "completed" then { s with byStatusCompleted := s.byStatusCompleted + 1 }
    else if a.status == "cancelled" then { s with byStatusCancelled := s.byStatusCancelled + 1 }
    else s
  if a.status == STATUS_PLANNED then
    if decide (today ≤ a.date) then { s with upcoming := s.upcoming + 1 }
    else { s with overdue := s.overdue + 1 }
  else s

/-- The optional company/contact narrowing shared by `getActivityStats`
(`if (companyId) ... if (contactId) ...`). -/
def narrowByIds (acts : List Activity) (companyId contactId : String) : List Activity :=
  let filtered := acts
  let filtered := if companyId == "" then filtered
    else filtered.filter (fun a => a.companyId == companyId)
  if contactId == "" then filtered
  else filtered.filter (fun a => a.contactId == contactId)

/-- `ActivitiesService.getActivityStats(companyId, contactId)` over a
loaded set. -/
def getActivityStats (acts : List Activity) (today companyId contactId : String) :
    ActivityStats :=
  let filtered := narrowByIds acts companyId contactId
  filtered.foldl (statsStep today)
    { total := filtered.length
      byType := []
      byStatusPlanned := 0
      byStatusCompleted := 0
      byStatusCancelled := 0
      upcoming := 0
      overdue := 0 }

/-! ## Custom-field definitions (`DataService.loadCustomFieldDefinitions`) -/

/-- `String.prototype.toLowerCase` (basic-latin range, which covers every
string the source compares against); structurally recursive so proofs can
evaluate it, unlike the well-founded `String.map`. -/
def jsToLower (s : String) : String :=
  ⟨s.data.map Char.toLower⟩

/-- One decoded row of the `CustomFields` sheet (columns A–K). -/
structure CustomFieldDef where
  rowIndex : Nat
  id : String
  entityType : String
  key : String
  label : String
  fieldType : String
  optionsJson : String
  required : Bool
  enabled : Bool
  order : Int
  createdAt : String
  updatedAt : String
deriving Repr, DecidableEq

/-- The per-row mapper inside `loadCustomFieldDefinitions`.  `row` is the
cell list (a short row leaves trailing cells `undefined`, which the
source's `|| ''` turns into `""`; `row.getD i ""` does both at once).
`genId` stands for the `DataService.generateId()` fallback and
`numParse` for JS `Number(...)`: `numParse s = some n` when `Number(s)`
is the finite number `n`, `none` when it is `NaN`/infinite; a missing
`order` cell gives `Number(undefined) = NaN`, hence the `Option.bind`. -/
def rowToCustomFieldDef (genId : String) (numParse : String → Option Int)
    (idx : Nat) (row : List String) : CustomFieldDef :=
  let requiredRaw := jsToLower (row.getD 6 "")
  let enabledRaw := jsToLower (row.getD 7 "")
  { rowIndex := idx
    id := if row.getD 0 "" == "" then genId else row.getD 0 ""
    entityType := if row.getD 1 "" == "" then "both" else row.getD 1 ""
    key := row.getD 2 ""
    label := row.getD 3 ""
    fieldType := if row.getD 4 "" == "" then "text" else row.getD 4 ""
    optionsJson := row.getD 5 ""
    required := requiredRaw == "true" || requiredRaw == "1" || requiredRaw == "yes"
    enabled := if enabledRaw == "" then true
      else enabledRaw == "true" || enabledRaw == "1" || enabledRaw == "yes"
    order := ((row.get? 8).bind numParse).getD 0
    createdAt := row.getD 9 ""
    updatedAt := row.getD 10 "" }

/-! ## Custom Fields UI (two `CustomFieldsUI` variants in the bundle)

The first variant reads `def.name` / `def.type` and skips disabled
definitions; the second reads `def.label` / `def.fieldType` and has no
`enabled` handling.  One record type carries all four naming fields so a
single definition object can flow through either variant, as in JS. -/

/-- A custom-field definition object as consumed by the UI helpers. -/
structure UIFieldDef where
  key : String
  name : String
  label : String
  type : String
  fieldType : String
  optionsJson : String
  required : Bool
  enabled : Bool
  order : Int
deriving Repr, DecidableEq

/-- A JS value appearing in a custom-field `values` object.  `num none`
is `NaN`. -/
inductive JsValue where
  | str (s : String)
  | num (n : Option Int)
  | bool (b : Bool)
deriving Repr, DecidableEq

/-- JS `String(v)` on the values above. -/
def jsString : JsValue → String
  | .str s => s
  | .num (some n) => toString n
  | .num none => "NaN"
  | .bool true => "true"
  | .bool false => "false"

/-- The state of a rendered form control when `collect` reads it back
(`el.value`, `el.checked`). -/
structure ControlState where
  value : String
  checked : Bool
deriving Repr, DecidableEq

/-- `CustomFieldsUI.safeId`: `String(str || '').replace(/[^a-zA-Z0-9_-]/g, '_')`. -/
def safeId (s : String) : String :=
  ⟨s.data.map (fun c =>
    if c.isAlphanum || c == Char.ofNat 95 || c == Char.ofNat 45 then c
    else Char.ofNat 95)⟩

/-- One global-`replace` step of `CustomFieldsUI.escape`; every pattern
there is a single character, so a `/g` replace is a character-wise
expansion (structurally recursive, unlike `String.replace`). -/
def replaceChar (s : String) (c : Char) (r : String) : String :=
  ⟨s.data.flatMap (fun x => if x == c then r.data else [x])⟩

/-- `CustomFieldsUI.escape`; `Char.ofNat 39` is the apostrophe. -/
def uiEscape (s : String) : String :=
  replaceChar (replaceChar (replaceChar (replaceChar (replaceChar s
    (Char.ofNat 38) "&amp;") (Char.ofNat 60) "&lt;") (Char.ofNat 62) "&gt;")
    (Char.ofNat 34) "&quot;") (Char.ofNat 39) "&#039;"

/-- `CustomFieldsUI.escapeAttr`. -/
def uiEscapeAttr (s : String) : String :=
  replaceChar (uiEscape s) (Char.ofNat 10) " "

/-- `CustomFieldsUI.parseOptions(def)`: the `JSON.parse` of a non-empty
`optionsJson` is the abstract parameter `parseOpts` (returning `[]` for
non-arrays and parse errors, with elements already passed through
`String(o)`). -/
def parseOptions (parseOpts : String → List String) (d : UIFieldDef) : List String :=
  if d.optionsJson == "" then [] else parseOpts d.optionsJson

/-- The `checked` test of the checkbox case:
`v === true || String(v).toLowerCase() === 'true' || String(v) === '1'`. -/
def checkboxChecked (v : JsValue) : Bool :=
  v == JsValue.bool true || jsToLower (jsString v) == "true" || jsString v == "1"

/-- The shared HTML body of `buildField` for a resolved lowercase type
`t`, used by both variants (they differ only in which record fields feed
`label`/`type` and in the disabled guard). -/
def buildFieldCore (parseOpts : String → List String) (d : UIFieldDef)
    (labelText typeText : String) (value : Option JsValue) (idPrefix : String) : String :=
  let key := d.key
  let safeKey := safeId key
  let inputId := idPrefix ++ safeKey
  let requiredAttr := if d.required then "required" else ""
  let labelHtml := "<label for=\"" ++ inputId ++ "\">" ++ uiEscape labelText ++
    (if d.required then " *" else "") ++ "</label>"
  let dataAttrs := "data-cf-key=\"" ++ uiEscapeAttr key ++ "\" data-cf-type=\"" ++
    uiEscapeAttr typeText ++ "\""
  let wrapStart := "<div class=\"form-group custom-field\" " ++ dataAttrs ++ ">" ++ labelHtml
  let wrapEnd := "</div>"
  let v := value.getD (JsValue.str "")
  let t := jsToLower (if typeText == "" then "text" else typeText)
  if t == "textarea" then
    wrapStart ++ "<textarea id=\"" ++ inputId ++ "\" " ++ requiredAttr ++
      " placeholder=\"\">" ++ uiEscape (jsString v) ++ "</textarea>" ++ wrapEnd
  else if t == "number" then
    wrapStart ++ "<input id=\"" ++ inputId ++ "\" type=\"number\" " ++ requiredAttr ++
      " value=\"" ++ uiEscapeAttr (jsString v) ++ "\">" ++ wrapEnd
  else if t == "date" then
    wrapStart ++ "<input id=\"" ++ inputId ++ "\" type=\"date\" " ++ requiredAttr ++
      " value=\"" ++ uiEscapeAttr (jsString v) ++ "\">" ++ wrapEnd
  else if t == "email" then
    wrapStart ++ "<input id=\"" ++ inputId ++ "\" type=\"email\" " ++ requiredAttr ++
      " value=\"" ++ uiEscapeAttr (jsString v) ++ "\">" ++ wrapEnd
  else if t == "url" then
    wrapStart ++ "<input id=\"" ++ inputId ++ "\" type=\"url\" " ++ requiredAttr ++
      " value=\"" ++ uiEscapeAttr (jsString v) ++ "\">" ++ wrapEnd
  else if t == "checkbox" then
    wrapStart ++ "<div class=\"custom-field-checkbox\"><input id=\"" ++ inputId ++
      "\" type=\"checkbox\" " ++ (if checkboxChecked v then "checked" else "") ++
      "></div>" ++ wrapEnd
  else if t == "select" then
    let options := parseOptions parseOpts d
    let opts := String.join
      (("<option value=\"\">—</option>" :: options.map (fun o =>
        let s := o
        let selected := if jsString v == s then "selected" else ""
        "<option value=\"" ++ uiEscapeAttr s ++ "\" " ++ selected ++ ">" ++
          uiEscape s ++ "</option>")))
    wrapStart ++ "<select id=\"" ++ inputId ++ "\" " ++ requiredAttr ++ ">" ++
      opts ++ "</select>" ++ wrapEnd
  else
    wrapStart ++ "<input id=\"" ++ inputId ++ "\" type=\"text\" " ++ requiredAttr ++
      " value=\"" ++ uiEscapeAttr (jsString v) ++ "\">" ++ wrapEnd

/-- First variant `CustomFieldsUI.buildField`: guards on `def.enabled`,
labels with `def.name`, switches on `def.type`. -/
def buildField1 (parseOpts : String → List String) (d : UIFieldDef)
    (value : Option JsValue) (idPrefix : String) : String :=
  if !d.enabled then ""
  else buildFieldCore parseOpts d d.name d.type value idPrefix

/-- Second variant `CustomFieldsUI.buildField`: no `enabled` guard,
labels with `def.label`, switches on `def.fieldType`. -/
def buildField2 (parseOpts : String → List String) (d : UIFieldDef)
    (value : Option JsValue) (idPrefix : String) : String :=
  buildFieldCore parseOpts d d.label d.fieldType value idPrefix

/-- First variant `CustomFieldsUI.mount`: filters to enabled definitions,
sorts by `order` ascending (stable JS sort ⇒ `mergeSort`), renders and
joins.  The container only receives the string, so the function returns
the `innerHTML` it assigns. -/
def mount1 (parseOpts : String → List String) (defs : List UIFieldDef)
    (values : String → Option JsValue) (idPrefix : String) : String :=
  let sorted := (defs.filter (fun d => d.enabled)).mergeSort
    (fun a b => decide (a.order ≤ b.order))
  String.join (sorted.map (fun d => buildField1 parseOpts d (values d.key) idPrefix))

/-- Second variant `CustomFieldsUI.mount`: sorts every definition by
`order` ascending and renders all of them, enabled or not. -/
def mount2 (parseOpts : String → List String) (defs : List UIFieldDef)
    (values : String → Option JsValue) (idPrefix : String) : String :=
  let sorted := defs.mergeSort (fun a b => decide (a.order ≤ b.order))
  String.join (sorted.map (fun d => buildField2 parseOpts d (values d.key) idPrefix))

/-- JS plain-object assignment `result[key] = v`: overwrite in place or
append. -/
def objSet (m : List (String × JsValue)) (k : String) (v : JsValue) :
    List (String × JsValue) :=
  match m with
  | [] => [(k, v)]
  | (k', v') :: rest => if k' == k then (k, v) :: rest else (k', v') :: objSet rest k v

/-- The per-definition read in `collect`, shared by both variants.  The
DOM query `containerEl.querySelector('#' + CSS.escape(inputId))` is the
abstract lookup `dom : String → Option ControlState` applied to
`inputId`; `numParse` is JS `Number(...)` as in `rowToCustomFieldDef`. -/
def collectStep (dom : String → Option ControlState) (numParse : String → Option Int)
    (idPrefix : String) (typeText : String) (result : List (String × JsValue))
    (d : UIFieldDef) : List (String × JsValue) :=
  let safeKey := safeId d.key
  let inputId := idPrefix ++ safeKey
  match dom inputId with
  | none => result
  | some el =>
    let t := jsToLower (if typeText == "" then "text" else typeText)
    if t == "checkbox" then
      objSet result d.key (JsValue.bool el.checked)
    else if t == "number" then
      objSet result d.key
        (if el.value == "" then JsValue.str "" else JsValue.num (numParse el.value))
    else
      objSet result d.key (JsValue.str el.value)

/-- First variant `CustomFieldsUI.collect`: skips disabled definitions,
switches on `def.type`. -/
def collect1 (dom : String → Option ControlState) (numParse : String → Option Int)
    (defs : List UIFieldDef) (idPrefix : String) : List (String × JsValue) :=
  defs.foldl (fun result d =>
    if !d.enabled then result
    else collectStep dom numParse idPrefix d.type result d) []

/-- Second variant `CustomFieldsUI.collect`: reads every definition,
switches on `def.fieldType`. -/
def collect2 (dom : String → Option ControlState) (numParse : String → Option Int)
    (defs : List UIFieldDef) (idPrefix : String) : List (String × JsValue) :=
  defs.foldl (fun result d =>
    collectStep dom numParse idPrefix d.fieldType result d) []

/-! ## Helper lemmas -/

theorem mapGet_mapSet_self {V : Type} (c : Cache V) (k : String) (e : CacheEntry V) :
    mapGet (mapSet c k e) k = some e := by
  induction c with
  | nil => simp [mapSet, mapGet]
  | cons hd tl ih =>
    obtain ⟨k', e'⟩ := hd
    by_cases hk : k' == k
    · simp [mapSet, mapGet, hk]
    · simp [mapSet, mapGet, hk, ih]

/-! ## Claim C2 (cache TTL behaviour) — corrected

The code returns a hit at exactly `now - timestamp = TTL`
(its miss condition is the strict `now - timestamp > CACHE_TTL`),
while the claim demands a miss "at or past the TTL". -/

/-- C2 counterexample: a value set at time `0` and read back at time
`CACHE_TTL` (so `now - timestamp` is exactly at the TTL, where the claim
demands a miss and an eviction) is still returned as a hit with the cache
untouched. -/
theorem c2_ttl_boundary_counterexample :
    CACHE_TTL ≤ 300000 - 0 ∧
    getCache (setCache ([] : Cache Nat) 0 "activities" 7) 300000 "activities" =
      (some 7, setCache ([] : Cache Nat) 0 "activities" 7) := by
  exact ⟨by decide, by decide⟩

/-- C2 amended: for every cache key, `getCache` after `setCache` returns
the stored value whenever `now - timestamp ≤ TTL` (cache unchanged), and
returns a miss and evicts the entry whenever `now - timestamp` is
strictly past the TTL; a key never set returns a miss and leaves the
cache unchanged. -/
theorem c2_cache_get_set_amended {V : Type} (c : Cache V) (t now : Nat)
    (k : String) (v : V) :
    (now - t ≤ CACHE_TTL →
      getCache (setCache c t k v) now k = (some v, setCache c t k v))
  ∧ (now - t > CACHE_TTL →
      getCache (setCache c t k v) now k = (none, mapDelete (setCache c t k v) k))
  ∧ (mapGet c k = none → getCache c now k = (none, c)) := by
  refine ⟨?_, ?_, ?_⟩
  · intro h
    unfold getCache setCache
    rw [mapGet_mapSet_self]
    simp only
    rw [if_neg (by omega)]
  · intro h
    unfold getCache setCache
    rw [mapGet_mapSet_self]
    simp only
    rw [if_pos (by omega)]
  · intro h
    unfold getCache
    rw [h]

/-- C2 amended, witness: concrete hit below the TTL, miss-and-evict past
the TTL, and miss on a never-set key. -/
theorem c2_cache_get_set_amended_witness :
    (getCache (setCache ([] : Cache Nat) 0 "companies" 3) 1 "companies" =
      (some 3, setCache ([] : Cache Nat) 0 "companies" 3))
  ∧ (getCache (setCache ([] : Cache Nat) 0 "companies" 3) 300001 "companies" =
      (none, mapDelete (setCache ([] : Cache Nat) 0 "companies" 3) "companies"))
  ∧ (getCache ([] : Cache Nat) 5 "contacts" = (none, [])) :=
  ⟨(c2_cache_get_set_amended [] 0 1 "companies" 3).1 (by decide),
   (c2_cache_get_set_amended [] 0 300001 "companies" 3).2.1 (by decide),
   (c2_cache_get_set_amended [] 0 5 "contacts" 3).2.2 (by decide)⟩

/-! ## Claim C3 (retry wrapper) — confirmed -/

theorem retryFrom_error_step {E A : Type} (op : Nat → Except E A) (base i fuel : Nat)
    (e : E) (he : op i = .error e) (hf : fuel ≠ 0) :
    retryFrom op base i (fuel + 1) =
      match retryFrom op base (i + 1) fuel with
      | some (r, calls, delays) => some (r, i :: calls, base * 2 ^ i :: delays)
      | none => none := by
  simp only [retryFrom, he, beq_iff_eq, hf, if_false]

theorem retryFrom_success {E A : Type} (op : Nat → Except E A) (base : Nat) (v : A) :
    ∀ (k i fuel : Nat), (∀ j, j < k → exceptIsOk (op (i + j)) = false) → k < fuel →
      op (i + k) = .ok v →
      retryFrom op base i fuel =
        some (.ok v, (List.range (k + 1)).map (fun j => i + j),
          (List.range k).map (fun j => base * 2 ^ (i + j))) := by
  intro k
  induction k with
  | zero =>
    intro i fuel _ hk hok
    obtain ⟨f, rfl⟩ : ∃ f, fuel = f + 1 := ⟨fuel - 1, by omega⟩
    simp only [Nat.add_zero] at hok
    simp [retryFrom, hok, List.range_succ]
  | succ k ih =>
    intro i fuel hfail hk hok
    obtain ⟨f, rfl⟩ : ∃ f, fuel = f + 1 := ⟨fuel - 1, by omega⟩
    have h0 : exceptIsOk (op i) = false := by
      have := hfail 0 (by omega)
      simpa using this
    obtain ⟨e, he⟩ : ∃ e, op i = .error e := by
      cases hop : op i with
      | ok a => rw [hop] at h0; simp [exceptIsOk] at h0
      | error e => exact ⟨e, rfl⟩
    have hrec := ih (i + 1) f
      (fun j hj => by
        have := hfail (j + 1) (by omega)
        simpa [Nat.add_assoc, Nat.add_comm 1 j] using this)
      (by omega)
      (by
        have : i + 1 + k = i + (k + 1) := by omega
        rw [this]; exact hok)
    have hf : f ≠ 0 := by omega
    simp only [retryFrom, he, beq_iff_eq, hf, if_false, hrec]
    refine congrArg some ?_
    refine congrArg (Prod.mk _) ?_
    have hcalls : i :: (List.range (k + 1)).map (fun j => i + 1 + j) =
        (List.range (k + 1 + 1)).map (fun j => i + j) := by
      rw [List.range_succ_eq_map (k + 1), List.map_cons, List.map_map]
      refine congrArg (List.cons _) ?_
      refine List.map_congr_left ?_
      intro j _
      simp [Nat.succ_eq_add_one]
      omega
    have hdelays : base * 2 ^ i :: (List.range k).map (fun j => base * 2 ^ (i + 1 + j)) =
        (List.range (k + 1)).map (fun j => base * 2 ^ (i + j)) := by
      rw [List.range_succ_eq_map k, List.map_cons, List.map_map]
      refine congrArg₂ List.cons (by simp) ?_
      refine List.map_congr_left ?_
      intro j _
      have : i + Nat.succ j = i + 1 + j := by omega
      simp [Function.comp, this]
    rw [hcalls, hdelays]

theorem retryFrom_allfail {E A : Type} (op : Nat → Except E A) (base : Nat) :
    ∀ (n i : Nat), 0 < n → (∀ j, j < n → exceptIsOk (op (i + j)) = false) →
      retryFrom op base i n =
        some (op (i + (n - 1)), (List.range n).map (fun j => i + j),
          (List.range (n - 1)).map (fun j => base * 2 ^ (i + j))) := by
  intro n
  induction n with
  | zero => intro i h; omega
  | succ m ih =>
    intro i _ hfail
    have h0 : exceptIsOk (op i) = false := by
      have := hfail 0 (by omega)
      simpa using this
    obtain ⟨e, he⟩ : ∃ e, op i = .error e := by
      cases hop : op i with
      | ok a => rw [hop] at h0; simp [exceptIsOk] at h0
      | error e => exact ⟨e, rfl⟩
    cases m with
    | zero =>
      simp [retryFrom, he, List.range_succ]
    | succ m' =>
      have hrec := ih (i + 1) (by omega)
        (fun j hj => by
          have := hfail (j + 1) (by omega)
          simpa [Nat.add_assoc, Nat.add_comm 1 j] using this)
      rw [retryFrom_error_step op base i (m' + 1) e he (by omega), hrec]
      simp only
      refine congrArg some ?_
      have harg : i + 1 + (m' + 1 - 1) = i + (m' + 1 + 1 - 1) := by omega
      rw [harg]
      refine congrArg (Prod.mk _) ?_
      have hcalls : i :: (List.range (m' + 1)).map (fun j => i + 1 + j) =
          (List.range (m' + 1 + 1)).map (fun j => i + j) := by
        rw [List.range_succ_eq_map (m' + 1), List.map_cons, List.map_map]
        refine congrArg (List.cons _) ?_
        refine List.map_congr_left ?_
        intro j _
        simp [Nat.succ_eq_add_one]
        omega
      have hdelays : base * 2 ^ i ::
          (List.range (m' + 1 - 1)).map (fun j => base * 2 ^ (i + 1 + j)) =
          (List.range (m' + 1 + 1 - 1)).map (fun j => base * 2 ^ (i + j)) := by
        simp only [Nat.add_sub_cancel]
        rw [List.range_succ_eq_map m', List.map_cons, List.map_map]
        refine congrArg₂ List.cons (by simp) ?_
        refine List.map_congr_left ?_
        intro j _
        have : i + Nat.succ j = i + 1 + j := by omega
        simp [Function.comp, this]
      rw [hcalls, hdelays]

/-- C3: with `N ≥ 1` maximum attempts, if the operation fails on its first
`k` invocations (`k < N`) and succeeds on invocation `k + 1`,
`retryRequest` returns that success after exactly the invocations
`0, …, k`, having waited `base * 2^i` ms after each failed attempt
`i < k`; if all `N` invocations fail, it propagates the `N`-th outcome
(`op (N - 1)`) unchanged after waits `base * 2^i` for `i < N - 1`. -/
theorem c3_retry_spec {E A : Type} (op : Nat → Except E A) (base N k : Nat) (v : A)
    (hN : 1 ≤ N) :
    ((∀ j, j < k → exceptIsOk (op j) = false) → k < N → op k = .ok v →
      retryRequest op N base =
        some (.ok v, List.range (k + 1), (List.range k).map (fun j => base * 2 ^ j)))
  ∧ ((∀ j, j < N → exceptIsOk (op j) = false) →
      retryRequest op N base =
        some (op (N - 1), List.range N, (List.range (N - 1)).map (fun j => base * 2 ^ j))) := by
  constructor
  · intro hfail hk hok
    have h := retryFrom_success op base v k 0 N
      (fun j hj => by simpa using hfail j hj) hk (by simpa using hok)
    simpa [retryRequest] using h
  · intro hfail
    have h := retryFrom_allfail op base N 0 (by omega)
      (fun j hj => by simpa using hfail j hj)
    simpa [retryRequest] using h

/-- The flaky operation used to witness C3: fails twice, then returns 42. -/
def opFlaky : Nat → Except String Nat :=
  fun i => if i < 2 then .error "boom" else .ok 42

/-- C3 witness: `opFlaky` with three attempts succeeds on the third call
after waits 1000 and 2000 ms; restricted to two attempts it propagates
the second failure after a single 1000 ms wait. -/
theorem c3_retry_spec_witness :
    (retryRequest opFlaky 3 1000 =
      some (.ok 42, List.range (2 + 1), (List.range 2).map (fun j => 1000 * 2 ^ j)))
  ∧ (retryRequest opFlaky 2 1000 =
      some (opFlaky (2 - 1), List.range 2, (List.range (2 - 1)).map (fun j => 1000 * 2 ^ j))) :=
  ⟨(c3_retry_spec opFlaky 1000 3 2 42 (by decide)).1
      (by decide) (by decide) (by rfl),
   (c3_retry_spec opFlaky 1000 2 0 42 (by decide)).2 (by decide)⟩

/-! ## Claim C7 (boolean / numeric column decoding) — corrected

`required` decodes exactly as the claim says, but an empty (or missing)
`enabled` cell decodes to `true`, not `false`: the source treats
`enabled` as default-on (`enabledRaw === '' ? true : ...`). -/

/-- C7 counterexample: a row whose `enabled` cell (column H) is empty
decodes to `enabled = true`, although `""` is not one of the literal
strings `"true"/"1"/"yes"` the claim allows for `true`. -/
theorem c7_enabled_empty_counterexample :
    (rowToCustomFieldDef "gen" (fun _ => none) 0
      ["f1", "company", "budget", "Budget", "number", "", "", ""]).enabled = true
  ∧ ¬("" ∈ (["true", "1", "yes"] : List String)) := by
  refine ⟨by rfl, by decide⟩

/-- C7 amended: `required` is `true` exactly when its cell lowercases to
one of `"true"/"1"/"yes"`; `enabled` is `true` exactly when its cell
lowercases to one of those strings **or is empty/missing** (default-on);
`order` falls back to `0` whenever `Number` yields no finite value
(including a missing cell) and is the parsed value otherwise. -/
theorem c7_row_decoding_amended (genId : String) (numParse : String → Option Int)
    (idx : Nat) (row : List String) :
    ((rowToCustomFieldDef genId numParse idx row).required = true ↔
      jsToLower (row.getD 6 "") ∈ (["true", "1", "yes"] : List String))
  ∧ ((rowToCustomFieldDef genId numParse idx row).enabled = true ↔
      (jsToLower (row.getD 7 "") ∈ (["true", "1", "yes"] : List String) ∨
        jsToLower (row.getD 7 "") = ""))
  ∧ ((row.get? 8).bind numParse = none →
      (rowToCustomFieldDef genId numParse idx row).order = 0)
  ∧ (∀ s n, row.get? 8 = some s → numParse s = some n →
      (rowToCustomFieldDef genId numParse idx row).order = n) := by
  refine ⟨?_, ?_, ?_, ?_⟩
  · simp only [rowToCustomFieldDef, Bool.or_eq_true, beq_iff_eq, List.mem_cons,
      List.mem_singleton, List.not_mem_nil, or_false]
    tauto
  · simp only [rowToCustomFieldDef]
    by_cases h : jsToLower (row.getD 7 "") = ""
    · simp [h]
      tauto
    · simp [h, beq_iff_eq]
      tauto
  · intro h
    rw [List.get?_eq_getElem?] at h
    simp [rowToCustomFieldDef, h]
  · intro s n hs hn
    rw [List.get?_eq_getElem?] at hs
    simp [rowToCustomFieldDef, hs, hn]

/-! ## Claims C5 and C6 (activity queries and filters) — confirmed -/

/-- Spec-side predicate of C5: "status `planned` and date ≥ today", with
the optional company/contact narrowing. -/
def specUpcoming (today companyId contactId : String) (a : Activity) : Bool :=
  a.status == "planned" && decide (today ≤ a.date) &&
    (companyId == "" || a.companyId == companyId) &&
    (contactId == "" || a.contactId == contactId)

/-- Spec-side predicate of C5: "status `planned` and date < today". -/
def specOverdue (today : String) (a : Activity) : Bool :=
  a.status == "planned" && decide (a.date < today)

/-- Spec-side predicate of C6: every present filter is satisfied, absent
(falsy) fields impose no constraint. -/
def specMatchesFilters (f : ActivityFilters) (a : Activity) : Bool :=
  (f.type == "" || a.type == f.type) &&
  (f.status == "" || a.status == f.status) &&
  (f.dateFrom == "" || decide (f.dateFrom ≤ a.date)) &&
  (f.dateTo == "" || decide (a.date ≤ f.dateTo))

theorem ifFilter_eq (s : String) (p : Activity → Bool) (l : List Activity) :
    (if s == "" then l else l.filter p) = l.filter (fun a => s == "" || p a) := by
  by_cases h : s = ""
  · simp [h]
  · have hs : (s == "") = false := by simp [h]
    simp [hs]

theorem filter_comm_pred (l : List Activity) (p q : Activity → Bool) :
    (l.filter p).filter q = l.filter (fun a => p a && q a) := by
  rw [List.filter_filter]
  refine List.filter_congr ?_
  intro a _
  cases hp : p a <;> cases hq : q a <;> rfl

theorem date_le_trans (a b c : Activity) :
    (decide (a.date ≤ b.date) : Bool) → (decide (b.date ≤ c.date) : Bool) →
      (decide (a.date ≤ c.date) : Bool) := by
  intro h1 h2
  simp only [decide_eq_true_eq] at *
  exact le_trans h1 h2

theorem date_le_total (a b : Activity) :
    ((decide (a.date ≤ b.date) : Bool) || (decide (b.date ≤ a.date) : Bool)) = true := by
  simp [le_total]

theorem date_ge_trans (a b c : Activity) :
    (decide (b.date ≤ a.date) : Bool) → (decide (c.date ≤ b.date) : Bool) →
      (decide (c.date ≤ a.date) : Bool) := by
  intro h1 h2
  simp only [decide_eq_true_eq] at *
  exact le_trans h2 h1

theorem date_ge_total (a b : Activity) :
    ((decide (b.date ≤ a.date) : Bool) || (decide (a.date ≤ b.date) : Bool)) = true := by
  simp [le_total]

theorem getUpcoming_eq_sorted_filter (acts : List Activity)
    (today companyId contactId : String) :
    getUpcomingActivities acts today companyId contactId =
      (acts.filter (specUpcoming today companyId contactId)).mergeSort
        (fun a b => decide (a.date ≤ b.date)) := by
  unfold getUpcomingActivities
  dsimp only
  rw [ifFilter_eq, ifFilter_eq, filter_comm_pred, filter_comm_pred]
  refine congrArg₂ _ ?_ rfl
  refine List.filter_congr ?_
  intro a _
  simp only [specUpcoming, STATUS_PLANNED, Bool.and_assoc]

theorem getOverdue_eq_sorted_filter (acts : List Activity) (today : String) :
    getOverdueActivities acts today =
      (acts.filter (specOverdue today)).mergeSort
        (fun a b => decide (a.date ≤ b.date)) := by
  unfold getOverdueActivities
  rfl

/-- C5: `getUpcomingActivities` returns exactly the `planned` activities
with `date ≥ today` (optionally narrowed by company/contact), sorted
ascending by date, and `getOverdueActivities` returns exactly the
`planned` activities with `date < today`, sorted ascending by date. -/
theorem c5_upcoming_overdue_spec (acts : List Activity)
    (today companyId contactId : String) :
    ((getUpcomingActivities acts today companyId contactId).Perm
        (acts.filter (specUpcoming today companyId contactId))
      ∧ List.Pairwise (fun x y => x.date ≤ y.date)
          (getUpcomingActivities acts today companyId contactId)
      ∧ (∀ x, x ∈ getUpcomingActivities acts today companyId contactId ↔
          x ∈ acts ∧ specUpcoming today companyId contactId x = true))
  ∧ ((getOverdueActivities acts today).Perm (acts.filter (specOverdue today))
      ∧ List.Pairwise (fun x y => x.date ≤ y.date) (getOverdueActivities acts today)
      ∧ (∀ x, x ∈ getOverdueActivities acts today ↔
          x ∈ acts ∧ specOverdue today x = true)) := by
  constructor
  · rw [getUpcoming_eq_sorted_filter]
    refine ⟨List.mergeSort_perm _ _, ?_, ?_⟩
    · refine (List.sorted_mergeSort (date_le_trans) (date_le_total) _).imp ?_
      intro a b h
      simpa using h
    · intro x
      simp [List.mem_mergeSort]
  · rw [getOverdue_eq_sorted_filter]
    refine ⟨List.mergeSort_perm _ _, ?_, ?_⟩
    · refine (List.sorted_mergeSort (date_le_trans) (date_le_total) _).imp ?_
      intro a b h
      simpa using h
    · intro x
      simp [List.mem_mergeSort]

theorem applyFilters_eq_sorted_filter (acts : List Activity) (f : ActivityFilters) :
    applyFilters acts f =
      (acts.filter (specMatchesFilters f)).mergeSort
        (fun a b => decide (b.date ≤ a.date)) := by
  unfold applyFilters
  dsimp only
  rw [ifFilter_eq, ifFilter_eq, ifFilter_eq, ifFilter_eq,
    filter_comm_pred, filter_comm_pred, filter_comm_pred]
  refine congrArg₂ _ ?_ rfl
  refine List.filter_congr ?_
  intro a _
  simp only [specMatchesFilters, Bool.and_assoc]

/-- C6: `applyFilters` returns exactly the activities satisfying every
present filter (exact type, exact status, inclusive date bounds,
absent fields unconstrained), sorted descending by date. -/
theorem c6_applyFilters_spec (acts : List Activity) (f : ActivityFilters) :
    (applyFilters acts f).Perm (acts.filter (specMatchesFilters f))
  ∧ List.Pairwise (fun x y => y.date ≤ x.date) (applyFilters acts f)
  ∧ (∀ x, x ∈ applyFilters acts f ↔ x ∈ acts ∧ specMatchesFilters f x = true) := by
  rw [applyFilters_eq_sorted_filter]
  refine ⟨List.mergeSort_perm _ _, ?_, ?_⟩
  · refine (List.sorted_mergeSort (date_ge_trans) (date_ge_total) _).imp ?_
    intro a b h
    simpa using h
  · intro x
    simp [List.mem_mergeSort]

/-! ## Claim C4 (validation collects every violated rule) — confirmed -/

/-- The interpolated unknown-type message
`` `Nieprawidłowy typ aktywności: ${activity.type}` ``. -/
def msgUnknownType (t : String) : String := "Nieprawidłowy typ aktywności: " ++ t

/-- Spec-side rule of C4: the activity type is not a configured type. -/
def ruleUnknownType (cfg : ActivityConfig) (a : Activity) : Bool :=
  (cfg.types a.type).isNone

/-- Spec-side rule of C4: the (known) type requires a title and the title
is missing. -/
def ruleMissingTitle (cfg : ActivityConfig) (a : Activity) : Bool :=
  match cfg.types a.type with
  | some t => t.requiresTitle && a.title == ""
  | none => false

/-- Spec-side rule of C4: the (known) type requires a date and the date is
missing. -/
def ruleMissingDate (cfg : ActivityConfig) (a : Activity) : Bool :=
  match cfg.types a.type with
  | some t => t.requiresDate && a.date == ""
  | none => false

/-- Spec-side rule of C4: neither `companyId` nor `contactId` is set. -/
def ruleMissingLink (a : Activity) : Bool :=
  a.companyId == "" && a.contactId == ""

/-- Spec-side rule of C4: a present date fails to parse. -/
def ruleBadDate (cfg : ActivityConfig) (a : Activity) : Bool :=
  a.date != "" && !cfg.parsesAsDate a.date

theorem append_ne_of_shorter (p m s : String) (hm : m.length < p.length) :
    p ++ s ≠ m := by
  intro h
  have hlen := congrArg String.length h
  rw [String.length_append] at hlen
  omega

theorem typeMsg_ne_link (s : String) :
    msgUnknownType s ≠ "Aktywność musi być powiązana z firmą lub kontaktem" := by
  intro h
  have h2 := congrArg String.data h
  rw [msgUnknownType, String.data_append] at h2
  obtain ⟨t, ht⟩ : ∃ t, ("Nieprawidłowy typ aktywności: ").data = 'N' :: t := ⟨_, rfl⟩
  obtain ⟨u, hu⟩ : ∃ u,
      ("Aktywność musi być powiązana z firmą lub kontaktem").data = 'A' :: u := ⟨_, rfl⟩
  rw [ht, hu, List.cons_append] at h2
  injection h2 with hc _
  exact absurd hc (by decide)

/-- C4: `validateActivity` collects one error message per violated rule —
its error count is the sum over the five rules, each rule's message is
present exactly when that rule is violated, `valid` is exactly emptiness
of the list, and in particular a title-requiring type with empty title and
no company/contact link yields at least two errors. -/
theorem c4_validate_collects_all (cfg : ActivityConfig) (a : Activity) :
    ((validateActivity cfg a).valid = (validateActivity cfg a).errors.isEmpty)
  ∧ ((validateActivity cfg a).errors.length =
      (if ruleUnknownType cfg a then 1 else 0) +
      (if ruleMissingTitle cfg a then 1 else 0) +
      (if ruleMissingDate cfg a then 1 else 0) +
      (if ruleMissingLink a then 1 else 0) +
      (if ruleBadDate cfg a then 1 else 0))
  ∧ (msgUnknownType a.type ∈ (validateActivity cfg a).errors ↔
      ruleUnknownType cfg a = true)
  ∧ ("Tytuł jest wymagany" ∈ (validateActivity cfg a).errors ↔
      ruleMissingTitle cfg a = true)
  ∧ ("Data jest wymagana" ∈ (validateActivity cfg a).errors ↔
      ruleMissingDate cfg a = true)
  ∧ ("Aktywność musi być powiązana z firmą lub kontaktem" ∈
        (validateActivity cfg a).errors ↔ ruleMissingLink a = true)
  ∧ ("Nieprawidłowy format daty" ∈ (validateActivity cfg a).errors ↔
      ruleBadDate cfg a = true)
  ∧ (∀ t, cfg.types a.type = some t → t.requiresTitle = true → a.title = "" →
      a.companyId = "" → a.contactId = "" →
      2 ≤ (validateActivity cfg a).errors.length) := by
  have hne2 : msgUnknownType a.type ≠ "Tytuł jest wymagany" :=
    append_ne_of_shorter _ _ _ (by decide)
  have hne3 : msgUnknownType a.type ≠ "Data jest wymagana" :=
    append_ne_of_shorter _ _ _ (by decide)
  have hne4 : msgUnknownType a.type ≠
      "Aktywność musi być powiązana z firmą lub kontaktem" :=
    typeMsg_ne_link a.type
  have hne5 : msgUnknownType a.type ≠ "Nieprawidłowy format daty" :=
    append_ne_of_shorter _ _ _ (by decide)
  have hne2s : "Tytuł jest wymagany" ≠ msgUnknownType a.type := Ne.symm hne2
  have hne3s : "Data jest wymagana" ≠ msgUnknownType a.type := Ne.symm hne3
  have hne4s : "Aktywność musi być powiązana z firmą lub kontaktem" ≠
    msgUnknownType a.type := Ne.symm hne4
  have hne5s : "Nieprawidłowy format daty" ≠ msgUnknownType a.type := Ne.symm hne5
  cases htype : cfg.types a.type with
  | none =>
    simp only [validateActivity, htype, ruleUnknownType, ruleMissingTitle,
      ruleMissingDate, ruleMissingLink, ruleBadDate]
    split_ifs with h1 h2 <;>
      simp_all [msgUnknownType]
  | some t =>
    simp only [validateActivity, htype, ruleUnknownType, ruleMissingTitle,
      ruleMissingDate, ruleMissingLink, ruleBadDate]
    split_ifs with h1 h2 h3 h4 <;>
      simp_all [msgUnknownType]

/-- A sample `CONFIG.ACTIVITIES.TYPES` table (used only to instantiate the
quantified theorems on concrete inputs).  Modelled from the spec: the four
types EMAIL/PHONE/MEETING/TASK with title/date requirement flags; the
config's `ACTIVITIES` section is not under `src/`. -/
def cfgCRM : ActivityConfig :=
  { types := fun t =>
      if t == "EMAIL" then some { requiresTitle := true, requiresDate := false }
      else if t == "PHONE" then some { requiresTitle := true, requiresDate := false }
      else if t == "MEETING" then some { requiresTitle := true, requiresDate := true }
      else if t == "TASK" then some { requiresTitle := true, requiresDate := true }
      else none
    parsesAsDate := fun s => s != "" }

/-- The activity of the C4 example: `{type:'EMAIL', title:'', companyId:'',
contactId:''}` (remaining fields absent, i.e. empty). -/
def actBlankEmail : Activity :=
  { id := "", type := "EMAIL", title := "", date := "", notes := ""
    companyId := "", contactId := "", status := "", createdBy := "", createdAt := "" }

/-- C4 witness: the example input yields at least two errors under the
sample configuration. -/
theorem c4_validate_collects_all_witness :
    2 ≤ (validateActivity cfgCRM actBlankEmail).errors.length :=
  (c4_validate_collects_all cfgCRM actBlankEmail).2.2.2.2.2.2.2
    { requiresTitle := true, requiresDate := false }
    (by rfl) (by rfl) (by rfl) (by rfl) (by rfl)

/-! ## Claims C1 and C9 (status transitions and idempotence) -/

theorem findIdxElem_set {α : Type} (p : α → Bool) :
    ∀ (l : List α) (i : Nat) (x y : α), findIdxElem p l = some (i, x) → p y = true →
      findIdxElem p (l.set i y) = some (i, y) := by
  intro l
  induction l with
  | nil => intro i x y h _; simp [findIdxElem] at h
  | cons a l ih =>
    intro i x y h hy
    by_cases ha : p a
    · rw [findIdxElem, if_pos ha] at h
      injection h with h'
      injection h' with hi hx
      subst hi
      rw [List.set_cons_zero, findIdxElem, if_pos hy]
    · rw [findIdxElem, if_neg ha] at h
      cases hrec : findIdxElem p l with
      | none => rw [hrec] at h; simp at h
      | some r =>
        obtain ⟨j, z⟩ := r
        rw [hrec] at h
        simp only [Option.map_some'] at h
        injection h with h'
        injection h' with hi hx
        subst hi
        subst hx
        rw [List.set_cons_succ, findIdxElem, if_neg ha, ih j z y hrec hy]
        rfl

theorem updateActivity_ok_elim (cfg : ActivityConfig) (env : SaveEnv)
    (acts acts₁ : List Activity) (aid : String) (u : ActivityUpdates) (m : Activity)
    (h : updateActivity cfg env acts aid u = .ok (acts₁, m)) :
    ∃ i a, findIdxElem (fun x => x.id == aid) acts = some (i, a) ∧
      m = applyUpdates a u aid ∧
      (validateActivity cfg m).valid = true ∧
      acts₁ = acts.set i (normalizeForSave env m) := by
  unfold updateActivity at h
  cases hf : findIdxElem (fun x => x.id == aid) acts with
  | none => rw [hf] at h; simp at h
  | some r =>
    obtain ⟨i, a⟩ := r
    rw [hf] at h
    dsimp only at h
    by_cases hv : (validateActivity cfg (applyUpdates a u aid)).valid
    · rw [if_pos hv] at h
      injection h with h'
      injection h' with h1 h2
      exact ⟨i, a, rfl, h2.symm, by rw [h2] at hv; exact hv, by rw [← h1, h2]⟩
    · rw [if_neg hv] at h
      simp at h

theorem if_empty_idem (d s : String) :
    (if (if s == "" then d else s) == "" then d else (if s == "" then d else s)) =
      (if s == "" then d else s) := by
  by_cases h : s = ""
  · simp [h]
  · simp [h]

theorem normalizeForSave_idem (env : SaveEnv) (a : Activity) :
    normalizeForSave env (normalizeForSave env a) = normalizeForSave env a := by
  cases a
  simp only [normalizeForSave]
  congr 1 <;> first
    | rfl
    | apply if_empty_idem

theorem validateActivity_congr (cfg : ActivityConfig) (a b : Activity)
    (ht : a.type = b.type) (hti : a.title = b.title) (hd : a.date = b.date)
    (hc : a.companyId = b.companyId) (hk : a.contactId = b.contactId) :
    validateActivity cfg a = validateActivity cfg b := by
  simp only [validateActivity, ht, hti, hd, hc, hk]

/-- The `updates` object of `completeActivity` /
`updateActivity(id, {status: 'completed'})`. -/
def statusCompletedUpdate : ActivityUpdates := { status? := some STATUS_COMPLETED }

/-- C9: `updateActivity(id, {status:'completed'})` is idempotent — after a
successful application (on a set holding the non-empty id), applying it
again succeeds, stores the identical activity set, returns the stored
record, and the stored record at the id keeps status `completed`. -/
theorem c9_update_completed_idempotent (cfg : ActivityConfig) (env : SaveEnv)
    (acts acts₁ : List Activity) (m : Activity) (aid : String) (hid : aid ≠ "")
    (h : updateActivity cfg env acts aid statusCompletedUpdate = .ok (acts₁, m)) :
    updateActivity cfg env acts₁ aid statusCompletedUpdate =
      .ok (acts₁, normalizeForSave env m)
  ∧ m.status = STATUS_COMPLETED
  ∧ (∃ i, findIdxElem (fun x => x.id == aid) acts₁ = some (i, normalizeForSave env m)
      ∧ (normalizeForSave env m).status = STATUS_COMPLETED) := by
  obtain ⟨i, a, hf, hm, hv, hacts⟩ := updateActivity_ok_elim cfg env acts acts₁ aid _ m h
  have hmid : m.id = aid := by rw [hm]; rfl
  have hmst : m.status = STATUS_COMPLETED := by rw [hm]; rfl
  have hnmid : (normalizeForSave env m).id = aid := by
    simp only [normalizeForSave]
    rw [hmid]
    simp [hid]
  have hnmst : (normalizeForSave env m).status = STATUS_COMPLETED := by
    simp only [normalizeForSave]
    rw [hmst]
    decide
  have hpnm : ((normalizeForSave env m).id == aid) = true := by rw [hnmid]; simp
  have hfind₁ : findIdxElem (fun x => x.id == aid) acts₁ =
      some (i, normalizeForSave env m) := by
    rw [hacts]
    exact findIdxElem_set _ acts i a (normalizeForSave env m) hf hpnm
  have hm2 : applyUpdates (normalizeForSave env m) statusCompletedUpdate aid =
      normalizeForSave env m := by
    show ({ id := aid
            type := (normalizeForSave env m).type
            title := (normalizeForSave env m).title
            date := (normalizeForSave env m).date
            notes := (normalizeForSave env m).notes
            companyId := (normalizeForSave env m).companyId
            contactId := (normalizeForSave env m).contactId
            status := STATUS_COMPLETED
            createdBy := (normalizeForSave env m).createdBy
            createdAt := (normalizeForSave env m).createdAt } : Activity) =
      normalizeForSave env m
    rw [← hnmid, ← hnmst]
  have hvalcongr : validateActivity cfg (normalizeForSave env m) =
      validateActivity cfg m :=
    validateActivity_congr cfg _ _ rfl rfl rfl rfl rfl
  refine ⟨?_, hmst, ⟨i, hfind₁, hnmst⟩⟩
  unfold updateActivity
  rw [hfind₁]
  dsimp only
  rw [hm2, hvalcongr, if_pos hv, normalizeForSave_idem, hacts, List.set_set]

/-! ## Claim C1 (terminal statuses) — corrected

Nothing in `updateActivity` guards the status transition: any status in
`updates` is merged and stored, so `completed`/`cancelled` are not
terminal, and `completeActivity`/`cancelActivity` succeed from any
status.  What does hold: an update without a `status` key preserves the
stored status, and the convenience wrappers always store their target
status. -/

/-- The ambient-state fixture for concrete runs (generated id, current
ISO timestamp, signed-in user e-mail). -/
def envCRM : SaveEnv :=
  { freshId := "id_gen", nowIso := "2024-02-01T08:00:00Z"
    userEmail := "user@example.com" }

/-- A stored activity whose status is the terminal `completed`. -/
def actCompleted : Activity :=
  { id := "a1", type := "EMAIL", title := "Follow up", date := "2024-01-10"
    notes := "", companyId := "c1", contactId := "", status := "completed"
    createdBy := "user@example.com", createdAt := "2024-01-01" }

/-- A stored activity whose status is the terminal `cancelled`. -/
def actCancelled : Activity :=
  { id := "a1", type := "EMAIL", title := "Follow up", date := "2024-01-10"
    notes := "", companyId := "c1", contactId := "", status := "cancelled"
    createdBy := "user@example.com", createdAt := "2024-01-01" }

/-- C1 counterexample: `updateActivity` — one of the claim's exposed
operations — applied to a stored activity in the terminal status
`completed` with `{status: 'planned'}` succeeds and stores the record
with status `planned`, a transition out of a terminal state. -/
theorem c1_terminal_status_counterexample :
    actCompleted.status = STATUS_COMPLETED
  ∧ updateActivity cfgCRM envCRM [actCompleted] "a1"
      { status? := some STATUS_PLANNED } =
      .ok ([{ actCompleted with status := STATUS_PLANNED }],
        { actCompleted with status := STATUS_PLANNED })
  ∧ STATUS_PLANNED ≠ STATUS_COMPLETED := by
  refine ⟨rfl, by rfl, by decide⟩

/-- C1 amended: the status field is **not** a guarded state machine — but
each exposed operation's effect on the stored status is deterministic:
an `updateActivity` whose updates carry no `status` key preserves the
located record's status in both the returned and (for a non-empty stored
status) the stored record; `completeActivity` stores status `completed`
and `cancelActivity` stores `cancelled` from **any** prior status,
terminal or not (see the counterexample for a transition out of
`completed`). -/
theorem c1_status_transitions_amended (cfg : ActivityConfig) (env : SaveEnv)
    (acts acts₁ : List Activity) (m : Activity) (aid : String) :
    (∀ u : ActivityUpdates, u.status? = none →
      updateActivity cfg env acts aid u = .ok (acts₁, m) →
      ∃ i a, findIdxElem (fun x => x.id == aid) acts = some (i, a) ∧
        m.status = a.status ∧
        (a.status ≠ "" → (normalizeForSave env m).status = a.status) ∧
        (aid ≠ "" → findIdxElem (fun x => x.id == aid) acts₁ =
          some (i, normalizeForSave env m)))
  ∧ (completeActivity cfg env acts aid = .ok (acts₁, m) →
      m.status = STATUS_COMPLETED ∧
      (normalizeForSave env m).status = STATUS_COMPLETED ∧
      (aid ≠ "" → ∃ i, findIdxElem (fun x => x.id == aid) acts₁ =
        some (i, normalizeForSave env m)))
  ∧ (cancelActivity cfg env acts aid = .ok (acts₁, m) →
      m.status = STATUS_CANCELLED ∧
      (normalizeForSave env m).status = STATUS_CANCELLED ∧
      (aid ≠ "" → ∃ i, findIdxElem (fun x => x.id == aid) acts₁ =
        some (i, normalizeForSave env m))) := by
  refine ⟨?_, ?_, ?_⟩
  · intro u hu h
    obtain ⟨i, a, hf, hm, _, hacts⟩ := updateActivity_ok_elim cfg env acts acts₁ aid u m h
    have hmst : m.status = a.status := by rw [hm, applyUpdates, hu]; rfl
    have hmid : m.id = aid := by rw [hm]; rfl
    refine ⟨i, a, hf, hmst, ?_, ?_⟩
    · intro hstat
      simp only [normalizeForSave]
      rw [hmst]
      simp [hstat]
    · intro hid
      rw [hacts]
      refine findIdxElem_set _ acts i a (normalizeForSave env m) hf ?_
      simp only [normalizeForSave]
      rw [hmid]
      simp [hid]
  · intro h
    obtain ⟨i, a, hf, hm, _, hacts⟩ :=
      updateActivity_ok_elim cfg env acts acts₁ aid statusCompletedUpdate m h
    have hmst : m.status = STATUS_COMPLETED := by rw [hm]; rfl
    have hmid : m.id = aid := by rw [hm]; rfl
    have hnmst : (normalizeForSave env m).status = STATUS_COMPLETED := by
      simp only [normalizeForSave]
      rw [hmst]
      decide
    refine ⟨hmst, hnmst, ?_⟩
    intro hid
    refine ⟨i, ?_⟩
    rw [hacts]
    refine findIdxElem_set _ acts i a (normalizeForSave env m) hf ?_
    simp only [normalizeForSave]
    rw [hmid]
    simp [hid]
  · intro h
    obtain ⟨i, a, hf, hm, _, hacts⟩ :=
      updateActivity_ok_elim cfg env acts acts₁ aid
        { status? := some STATUS_CANCELLED } m h
    have hmst : m.status = STATUS_CANCELLED := by rw [hm]; rfl
    have hmid : m.id = aid := by rw [hm]; rfl
    have hnmst : (normalizeForSave env m).status = STATUS_CANCELLED := by
      simp only [normalizeForSave]
      rw [hmst]
      decide
    refine ⟨hmst, hnmst, ?_⟩
    intro hid
    refine ⟨i, ?_⟩
    rw [hacts]
    refine findIdxElem_set _ acts i a (normalizeForSave env m) hf ?_
    simp only [normalizeForSave]
    rw [hmid]
    simp [hid]

/-- C1 amended, witness: a status-free update of a `cancelled` activity
keeps it `cancelled`, and `completeActivity` of that same `cancelled`
activity stores `completed`. -/
theorem c1_status_transitions_amended_witness :
    (∃ i a, findIdxElem (fun x => x.id == "a1") [actCancelled] = some (i, a) ∧
      actCancelled.status = a.status ∧
      (a.status ≠ "" → (normalizeForSave envCRM actCancelled).status = a.status) ∧
      ("a1" ≠ "" → findIdxElem (fun x => x.id == "a1") [actCancelled] =
        some (i, normalizeForSave envCRM actCancelled)))
  ∧ (({ actCancelled with status := STATUS_COMPLETED } : Activity).status =
        STATUS_COMPLETED ∧
      (normalizeForSave envCRM
        { actCancelled with status := STATUS_COMPLETED }).status = STATUS_COMPLETED ∧
      ("a1" ≠ "" → ∃ i, findIdxElem (fun x => x.id == "a1")
          [{ actCancelled with status := STATUS_COMPLETED }] =
        some (i, normalizeForSave envCRM
          { actCancelled with status := STATUS_COMPLETED }))) :=
  ⟨(c1_status_transitions_amended cfgCRM envCRM [actCancelled] [actCancelled]
      actCancelled "a1").1 {} rfl (by rfl),
   (c1_status_transitions_amended cfgCRM envCRM [actCancelled]
      [{ actCancelled with status := STATUS_COMPLETED }]
      { actCancelled with status := STATUS_COMPLETED } "a1").2.1 (by rfl)⟩

/-- C9 witness: completing a concrete planned activity twice stores the
same single-record set both times. -/
theorem c9_update_completed_idempotent_witness :
    updateActivity cfgCRM envCRM [{ actCancelled with status := STATUS_PLANNED }]
      "a1" statusCompletedUpdate =
      .ok ([{ actCancelled with status := STATUS_COMPLETED }],
        { actCancelled with status := STATUS_COMPLETED })
  ∧ updateActivity cfgCRM envCRM [{ actCancelled with status := STATUS_COMPLETED }]
      "a1" statusCompletedUpdate =
      .ok ([{ actCancelled with status := STATUS_COMPLETED }],
        normalizeForSave envCRM { actCancelled with status := STATUS_COMPLETED }) :=
  ⟨by rfl,
   (c9_update_completed_idempotent cfgCRM envCRM
      [{ actCancelled with status := STATUS_PLANNED }]
      [{ actCancelled with status := STATUS_COMPLETED }]
      { actCancelled with status := STATUS_COMPLETED }
      "a1" (by decide) (by rfl)).1⟩

/-! ## Claim C10 (statistics invariants) — confirmed -/

/-- Sum of the per-type counters of the `byType` object. -/
def byTypeTotal (m : List (String × Nat)) : Nat :=
  (m.map Prod.snd).sum

theorem bumpType_total (m : List (String × Nat)) (t : String) :
    byTypeTotal (bumpType m t) = byTypeTotal m + 1 := by
  induction m with
  | nil => rfl
  | cons hd tl ih =>
    obtain ⟨k, n⟩ := hd
    cases hk : (k == t) with
    | true =>
      simp [bumpType, hk, byTypeTotal]
      omega
    | false =>
      simp only [bumpType, hk, Bool.false_eq_true, if_false]
      simp only [byTypeTotal, List.map_cons, List.sum_cons] at ih ⊢
      omega

theorem statsStep_total (today : String) (s : ActivityStats) (a : Activity) :
    (statsStep today s a).total = s.total := by
  unfold statsStep
  split_ifs <;> rfl

theorem statsStep_byType (today : String) (s : ActivityStats) (a : Activity) :
    (statsStep today s a).byType = bumpType s.byType a.type := by
  unfold statsStep
  split_ifs <;> rfl

theorem statsStep_planned (today : String) (s : ActivityStats) (a : Activity) :
    (statsStep today s a).byStatusPlanned =
      s.byStatusPlanned + (if a.status == "planned" then 1 else 0) := by
  unfold statsStep
  split_ifs <;> simp_all

theorem statsStep_completed (today : String) (s : ActivityStats) (a : Activity) :
    (statsStep today s a).byStatusCompleted =
      s.byStatusCompleted + (if a.status == "completed" then 1 else 0) := by
  unfold statsStep
  split_ifs <;> simp_all [STATUS_PLANNED]

theorem statsStep_cancelled (today : String) (s : ActivityStats) (a : Activity) :
    (statsStep today s a).byStatusCancelled =
      s.byStatusCancelled + (if a.status == "cancelled" then 1 else 0) := by
  unfold statsStep
  split_ifs <;> simp_all [STATUS_PLANNED]

theorem statsStep_upDown (today : String) (s : ActivityStats) (a : Activity) :
    (statsStep today s a).upcoming + (statsStep today s a).overdue =
      s.upcoming + s.overdue + (if a.status == "planned" then 1 else 0) := by
  unfold statsStep
  split_ifs <;> simp_all [STATUS_PLANNED] <;> omega

theorem statsFold_invariants (today : String) :
    ∀ (l : List Activity) (s : ActivityStats),
      (l.foldl (statsStep today) s).total = s.total
    ∧ byTypeTotal (l.foldl (statsStep today) s).byType = byTypeTotal s.byType + l.length
    ∧ (l.foldl (statsStep today) s).byStatusPlanned =
        s.byStatusPlanned + l.countP (fun a => a.status == "planned")
    ∧ (l.foldl (statsStep today) s).byStatusCompleted =
        s.byStatusCompleted + l.countP (fun a => a.status == "completed")
    ∧ (l.foldl (statsStep today) s).byStatusCancelled =
        s.byStatusCancelled + l.countP (fun a => a.status == "cancelled")
    ∧ (l.foldl (statsStep today) s).upcoming + (l.foldl (statsStep today) s).overdue =
        s.upcoming + s.overdue + l.countP (fun a => a.status == "planned") := by
  intro l
  induction l with
  | nil => intro s; simp
  | cons a l ih =>
    intro s
    obtain ⟨h1, h2, h3, h4, h5, h6⟩ := ih (statsStep today s a)
    simp only [List.foldl_cons, List.countP_cons, List.length_cons]
    refine ⟨?_, ?_, ?_, ?_, ?_, ?_⟩
    · rw [h1, statsStep_total]
    · rw [h2, statsStep_byType, bumpType_total]
      omega
    · rw [h3, statsStep_planned]
      omega
    · rw [h4, statsStep_completed]
      omega
    · rw [h5, statsStep_cancelled]
      omega
    · rw [h6, statsStep_upDown]
      omega

/-- C10: after the optional company/contact narrowing, `getActivityStats`
reports `total` equal to the narrowed count, `byType` counters summing to
`total`, each `byStatus` counter equal to the number of activities with
that literal status, and `upcoming + overdue` equal to the `planned`
counter (every planned activity lands in exactly one of the two). -/
theorem c10_activity_stats_invariants (acts : List Activity)
    (today companyId contactId : String) :
    (getActivityStats acts today companyId contactId).total =
      (narrowByIds acts companyId contactId).length
  ∧ byTypeTotal (getActivityStats acts today companyId contactId).byType =
      (getActivityStats acts today companyId contactId).total
  ∧ (getActivityStats acts today companyId contactId).byStatusPlanned =
      (narrowByIds acts companyId contactId).countP (fun a => a.status == "planned")
  ∧ (getActivityStats acts today companyId contactId).byStatusCompleted =
      (narrowByIds acts companyId contactId).countP (fun a => a.status == "completed")
  ∧ (getActivityStats acts today companyId contactId).byStatusCancelled =
      (narrowByIds acts companyId contactId).countP (fun a => a.status == "cancelled")
  ∧ (getActivityStats acts today companyId contactId).upcoming +
      (getActivityStats acts today companyId contactId).overdue =
      (getActivityStats acts today companyId contactId).byStatusPlanned := by
  obtain ⟨h1, h2, h3, h4, h5, h6⟩ :=
    statsFold_invariants today (narrowByIds acts companyId contactId)
      { total := (narrowByIds acts companyId contactId).length
        byType := []
        byStatusPlanned := 0
        byStatusCompleted := 0
        byStatusCancelled := 0
        upcoming := 0
        overdue := 0 }
  unfold getActivityStats
  dsimp only
  refine ⟨h1, ?_, ?_, ?_, ?_, ?_⟩
  · rw [h2, h1]
    simp [byTypeTotal]
  · rw [h3]
    simp
  · rw [h4]
    simp
  · rw [h5]
    simp
  · rw [h6, h3]
    simp

/-! ## Claim C8 (disabled custom fields) — corrected

The first `CustomFieldsUI` variant filters disabled definitions out of
both `mount` and `collect`; the second variant bundled in the same file
has no `enabled` handling at all and renders/collects disabled
definitions like enabled ones. -/

theorem order_le_trans (a b c : UIFieldDef) :
    (decide (a.order ≤ b.order) : Bool) → (decide (b.order ≤ c.order) : Bool) →
      (decide (a.order ≤ c.order) : Bool) := by
  intro h1 h2
  simp only [decide_eq_true_eq] at *
  exact le_trans h1 h2

theorem order_le_total (a b : UIFieldDef) :
    ((decide (a.order ≤ b.order) : Bool) || (decide (b.order ≤ a.order) : Bool)) = true := by
  simp [le_total]

theorem mem_objSet (k k' : String) (v v' : JsValue) :
    ∀ m : List (String × JsValue),
      (k', v') ∈ objSet m k v → (k', v') ∈ m ∨ k' = k := by
  intro m
  induction m with
  | nil =>
    intro h
    rw [objSet] at h
    have h1 : ((k', v') : String × JsValue) = (k, v) := List.mem_singleton.mp h
    injection h1 with h2 _
    exact Or.inr h2
  | cons hd tl ih =>
    obtain ⟨k0, v0⟩ := hd
    intro h
    by_cases hk : k0 == k
    · rw [objSet, if_pos hk] at h
      rcases List.mem_cons.mp h with h1 | h1
      · exact Or.inr (congrArg Prod.fst h1)
      · exact Or.inl (List.mem_cons_of_mem _ h1)
    · rw [objSet, if_neg hk] at h
      rcases List.mem_cons.mp h with h1 | h1
      · exact Or.inl (List.mem_cons.mpr (Or.inl h1))
      · rcases ih h1 with h2 | h2
        · exact Or.inl (List.mem_cons_of_mem _ h2)
        · exact Or.inr h2

theorem mem_collectStep (dom : String → Option ControlState)
    (numParse : String → Option Int) (idPrefix typeText : String)
    (res : List (String × JsValue)) (d : UIFieldDef) (k : String) (v : JsValue) :
    (k, v) ∈ collectStep dom numParse idPrefix typeText res d →
      (k, v) ∈ res ∨ k = d.key := by
  unfold collectStep
  dsimp only
  cases hdom : dom (idPrefix ++ safeId d.key) with
  | none => exact fun h => Or.inl h
  | some el =>
    dsimp only
    split_ifs
    all_goals exact mem_objSet d.key k _ v res

theorem foldl_skip_filter {α β : Type} (p : α → Bool) (f : β → α → β) :
    ∀ (l : List α) (init : β),
      l.foldl (fun acc x => if !p x then acc else f acc x) init =
        (l.filter p).foldl f init := by
  intro l
  induction l with
  | nil => intro init; rfl
  | cons a l ih =>
    intro init
    cases hp : p a with
    | false =>
      have h1 : (if !p a then init else f init a) = init := by simp [hp]
      have h2 : List.filter p (a :: l) = List.filter p l := by
        simp [List.filter_cons, hp]
      rw [List.foldl_cons, h1, h2]
      exact ih init
    | true =>
      have h1 : (if !p a then init else f init a) = f init a := by simp [hp]
      have h2 : List.filter p (a :: l) = a :: List.filter p l := by
        simp [List.filter_cons, hp]
      rw [List.foldl_cons, h1, h2, List.foldl_cons]
      exact ih (f init a)

theorem collect1_keys (dom : String → Option ControlState)
    (numParse : String → Option Int) (idPrefix : String) :
    ∀ (defs : List UIFieldDef) (res : List (String × JsValue)) (k : String) (v : JsValue),
      (k, v) ∈ defs.foldl (fun result d =>
        if !d.enabled then result
        else collectStep dom numParse idPrefix d.type result d) res →
      (k, v) ∈ res ∨ ∃ d, d ∈ defs ∧ d.enabled = true ∧ d.key = k := by
  intro defs
  induction defs with
  | nil => intro res k v h; exact Or.inl h
  | cons a l ih =>
    intro res k v h
    rw [List.foldl_cons] at h
    rcases ih _ k v h with h1 | h1
    · cases ha : a.enabled with
      | false => rw [ha] at h1; simp at h1; exact Or.inl h1
      | true =>
        rw [ha] at h1
        simp only [Bool.not_true, Bool.false_eq_true, if_false] at h1
        rcases mem_collectStep dom numParse idPrefix a.type res a k v h1 with h2 | h2
        · exact Or.inl h2
        · exact Or.inr ⟨a, List.mem_cons_self a l, ha, h2.symm⟩
    · obtain ⟨d, hd, hde, hdk⟩ := h1
      exact Or.inr ⟨d, List.mem_cons_of_mem _ hd, hde, hdk⟩

/-- C8 amended: in the **first** variant a disabled definition renders to
the empty string, `mount`/`collect` behave identically on the definition
list and on its enabled sublist, every collected key comes from an
enabled definition, and the rendered output is the concatenation over a
permutation of the enabled definitions that is ascending in `order`.
(The second variant renders and collects disabled definitions too — see
the counterexample.) -/
theorem c8_custom_fields_amended (parseOpts : String → List String)
    (dom : String → Option ControlState) (numParse : String → Option Int)
    (defs : List UIFieldDef) (values : String → Option JsValue) (idPrefix : String) :
    (∀ (d : UIFieldDef) (value : Option JsValue) (pre : String),
      d.enabled = false → buildField1 parseOpts d value pre = "")
  ∧ mount1 parseOpts defs values idPrefix =
      mount1 parseOpts (defs.filter (fun d => d.enabled)) values idPrefix
  ∧ collect1 dom numParse defs idPrefix =
      collect1 dom numParse (defs.filter (fun d => d.enabled)) idPrefix
  ∧ (∀ (k : String) (v : JsValue), (k, v) ∈ collect1 dom numParse defs idPrefix →
      ∃ d, d ∈ defs ∧ d.enabled = true ∧ d.key = k)
  ∧ (∃ sorted : List UIFieldDef,
      sorted.Perm (defs.filter (fun d => d.enabled)) ∧
      List.Pairwise (fun x y => x.order ≤ y.order) sorted ∧
      mount1 parseOpts defs values idPrefix =
        String.join (sorted.map (fun d =>
          buildField1 parseOpts d (values d.key) idPrefix))) := by
  refine ⟨?_, ?_, ?_, ?_, ?_⟩
  · intro d value pre hd
    simp [buildField1, hd]
  · unfold mount1
    rw [List.filter_filter]
    simp [Bool.and_self]
  · unfold collect1
    rw [foldl_skip_filter, foldl_skip_filter, List.filter_filter]
    simp [Bool.and_self]
  · intro k v h
    rcases collect1_keys dom numParse idPrefix defs [] k v h with h1 | h1
    · simp at h1
    · exact h1
  · refine ⟨(defs.filter (fun d => d.enabled)).mergeSort
      (fun a b => decide (a.order ≤ b.order)), List.mergeSort_perm _ _, ?_, ?_⟩
    · refine (List.sorted_mergeSort (order_le_trans) (order_le_total) _).imp ?_
      intro a b h
      simpa using h
    · rfl

/-- The disabled definition used in the C8 counterexample and witness. -/
def disabledBudgetDef : UIFieldDef :=
  { key := "budget", name := "Budget", label := "Budget", type := "text"
    fieldType := "text", optionsJson := "", required := false
    enabled := false, order := 0 }

/-- The same definition, enabled. -/
def enabledBudgetDef : UIFieldDef :=
  { disabledBudgetDef with enabled := true }

/-- The DOM state read back by `collect`: the `budget` control holds
`"500"`. -/
def domBudget : String → Option ControlState :=
  fun s => if s == "budget" then some { value := "500", checked := false } else none

/-- C8 counterexample: the second `CustomFieldsUI` variant renders a
disabled definition (non-empty `mount` output) and collects its key. -/
theorem c8_variant2_disabled_counterexample :
    disabledBudgetDef.enabled = false
  ∧ mount2 (fun _ => []) [disabledBudgetDef] (fun _ => none) "" ≠ ""
  ∧ ("budget", JsValue.str "500") ∈
      collect2 domBudget (fun _ => none) [disabledBudgetDef] "" := by
  refine ⟨rfl, ?_, ?_⟩
  · rw [show mount2 (fun _ => []) [disabledBudgetDef] (fun _ => none) "" =
        buildField2 (fun _ => []) disabledBudgetDef none "" from by
      unfold mount2
      rw [List.mergeSort_singleton]
      rfl]
    decide
  · decide

/-- C8 amended, witness: the first variant renders the disabled
definition to nothing, and a key collected from a concrete enabled
definition list indeed belongs to an enabled definition. -/
theorem c8_custom_fields_amended_witness :
    buildField1 (fun _ => []) disabledBudgetDef none "" = ""
  ∧ (∃ d, d ∈ [enabledBudgetDef] ∧ d.enabled = true ∧ d.key = "budget") :=
  ⟨(c8_custom_fields_amended (fun _ => []) domBudget (fun _ => none)
      [enabledBudgetDef] (fun _ => none) "").1 disabledBudgetDef none "" rfl,
   (c8_custom_fields_amended (fun _ => []) domBudget (fun _ => none)
      [enabledBudgetDef] (fun _ => none) "").2.2.2.1 "budget" (JsValue.str "500")
      (by decide)⟩
